import Mathlib

/-!
Verification of the medicine data-entry application (`src/app/page.tsx`).

The page component is a single React client component whose handlers
orchestrate an external auth provider, a table store and a blob store.
Each handler is embedded below as a pure Lean function: the component's
relevant state is passed explicitly, the outcomes of external calls
(upload success, insert success, fetch results, confirmation dialogs)
are supplied through an environment record, and each handler returns the
list of network calls it issued together with the resulting UI state.
-/

set_option autoImplicit false

/-- The `Entry` interface of `page.tsx`: one saved record with an ordered
list of image references. -/
structure Entry where
  id : String
  user_id : String
  medicine_name : String
  image_urls : List String
  created_at : String
deriving DecidableEq, Repr

/-- A selected in-memory file handle; only its name is consulted by the
handlers (for the extension). -/
structure FileHandle where
  name : String
deriving DecidableEq, Repr

/-- A transient user-facing notification, as produced by `showNotification`. -/
inductive Notif where
  | success (msg : String)
  | error (msg : String)
deriving DecidableEq, Repr

/-- JavaScript `s.split(sep)` restricted to a single-character separator,
on explicit character lists: always returns at least one (possibly empty)
segment. -/
def splitOnChar (c : Char) : List Char → List (List Char)
  | [] => [[]]
  | a :: rest =>
    let r := splitOnChar c rest
    if a == c then [] :: r
    else
      match r with
      | [] => [[a]]
      | h :: t => (a :: h) :: t

/-- JavaScript `s.split('.').pop()`: the text after the last `'.'`, or the
whole string when no `'.'` occurs (split of a dot-free string is a
one-element array). -/
def jsSplitPop (s : String) : String :=
  ((splitOnChar '.' s.toList).getLastD []).asString

/-- JavaScript `s.trim()`: strip leading and trailing whitespace. -/
def jsTrim (s : String) : String :=
  (((s.toList.dropWhile Char.isWhitespace).reverse.dropWhile
      Char.isWhitespace).reverse).asString

/-- The component state consulted by `handleSubmit`: the label input
`text`, the dropzone selection `files`, and the session user (its id). -/
structure SubmitState where
  text : String
  files : List FileHandle
  user : Option String
deriving Repr

/-- Outcomes of the external calls `handleSubmit` may issue: whether the
storage upload of the i-th file succeeds, the unique key generated for the
i-th file (`crypto.randomUUID()`), and whether the table insert succeeds. -/
structure SubmitEnv where
  uploadOk : Nat → Bool
  uniqueKey : Nat → String
  insertOk : Bool

/-- The payload of one `insert` call on the `entries` table. -/
structure InsertedRecord where
  user_id : String
  medicine_name : String
  image_urls : List String
deriving DecidableEq, Repr

/-- Observable outcome of one `handleSubmit` run: the storage paths passed
to `upload` in order, the `insert` payloads, the number of `console.error`
logs, the resulting `text`/`files` state, whether `fetchEntries` was
called, and the notification shown. -/
structure SubmitResult where
  uploadCalls : List String
  insertCalls : List InsertedRecord
  errorLogs : Nat
  finalText : String
  finalFiles : List FileHandle
  refreshed : Bool
  notification : Option Notif
deriving DecidableEq, Repr

/-- Collected outcome of the per-file upload loop of `handleSubmit`. -/
structure UploadOut where
  attempted : List String
  urls : List String
  logs : Nat
deriving DecidableEq, Repr

/-- The `for (const file of files)` loop of `handleSubmit` (lines
117-134): for each file derive `fileExt = file.name.split('.').pop()`,
build the storage path `user.id/unique.fileExt`, attempt the upload; on
error log and `continue`, on success push the storage path onto
`imageUrls`. -/
def uploadLoop (uid : String) (env : SubmitEnv) : List FileHandle → Nat → UploadOut
  | [], _ => ⟨[], [], 0⟩
  | f :: rest, idx =>
    let path := uid ++ "/" ++ env.uniqueKey idx ++ "." ++ jsSplitPop f.name
    let out := uploadLoop uid env rest (idx + 1)
    if env.uploadOk idx then ⟨path :: out.attempted, path :: out.urls, out.logs⟩
    else ⟨path :: out.attempted, out.urls, out.logs + 1⟩

/-- `handleSubmit` (lines 112-148): guard
`if (!text.trim() || files.length === 0 || !user) return;`, then upload
each file best-effort, then insert one record carrying the successful
image paths; on insert error log and notify failure leaving state intact,
on success clear `text` and `files`, re-fetch and notify success. -/
def handleSubmit (s : SubmitState) (env : SubmitEnv) : SubmitResult :=
  match s.user with
  | none =>
    { uploadCalls := [], insertCalls := [], errorLogs := 0,
      finalText := s.text, finalFiles := s.files, refreshed := false,
      notification := none }
  | some uid =>
    if jsTrim s.text == "" || s.files.isEmpty then
      { uploadCalls := [], insertCalls := [], errorLogs := 0,
        finalText := s.text, finalFiles := s.files, refreshed := false,
        notification := none }
    else
      let out := uploadLoop uid env s.files 0
      let record : InsertedRecord :=
        { user_id := uid, medicine_name := s.text, image_urls := out.urls }
      if env.insertOk then
        { uploadCalls := out.attempted, insertCalls := [record],
          errorLogs := out.logs, finalText := "", finalFiles := [],
          refreshed := true, notification := some (.success "Upload successful") }
      else
        { uploadCalls := out.attempted, insertCalls := [record],
          errorLogs := out.logs + 1, finalText := s.text, finalFiles := s.files,
          refreshed := false, notification := some (.error "Upload unsuccessful") }

/-- Lower-case the characters of a string (models JavaScript
`toLowerCase()`; agrees on the ASCII labels at issue). -/
def lowerChars (s : String) : List Char :=
  s.toList.map Char.toLower

/-- JavaScript `haystack.includes(needle)` on character lists: `needle`
occurs as a contiguous substring of `haystack`. -/
def charsIncludes : List Char → List Char → Bool
  | [], needle => needle.isPrefixOf []
  | h :: rest, needle => needle.isPrefixOf (h :: rest) || charsIncludes rest needle

/-- `filteredEntries` (lines 66-68):
`entries.filter(e => e.medicine_name.toLowerCase().includes(searchTerm.toLowerCase()))`. -/
def filteredEntries (entries : List Entry) (searchTerm : String) : List Entry :=
  entries.filter (fun entry =>
    charsIncludes (lowerChars entry.medicine_name) (lowerChars searchTerm))

/-- One worksheet as built by `exportCSV` / `exportXLSX`: sheet name,
header row, and the data rows (label, image count). -/
structure Worksheet where
  sheetName : String
  headers : List String
  rows : List (String × Nat)
deriving DecidableEq, Repr

/-- A file handed to `saveAs`: the serialized worksheet plus the fixed
download filename. -/
structure ExportFile where
  sheet : Worksheet
  fileName : String
deriving DecidableEq, Repr

/-- The worksheet built identically by `exportCSV` (lines 150-172) and
`exportXLSX` (lines 174-196): one sheet `Entries` with headers
`Medicine Name` / `Image Count` and one row per entry projecting it to
`(medicine_name, image_urls.length)`. -/
def entriesWorksheet (entries : List Entry) : Worksheet :=
  { sheetName := "Entries",
    headers := ["Medicine Name", "Image Count"],
    rows := entries.map (fun e => (e.medicine_name, e.image_urls.length)) }

/-- `exportCSV`: serialize the worksheet and download it as `entries.csv`. -/
def exportCSV (entries : List Entry) : ExportFile :=
  { sheet := entriesWorksheet entries, fileName := "entries.csv" }

/-- `exportXLSX`: serialize the worksheet and download it as `entries.xlsx`. -/
def exportXLSX (entries : List Entry) : ExportFile :=
  { sheet := entriesWorksheet entries, fileName := "entries.xlsx" }

/-- Data stored in one archive member: either literal text
(`medicine_name.txt`) or the bytes fetched from a location. -/
inductive FileData where
  | text (s : String)
  | blob (loc : String)
deriving DecidableEq, Repr

/-- One archive folder: its name and its members in creation order. -/
structure ZipFolder where
  name : String
  files : List (String × FileData)
deriving DecidableEq, Repr

/-- `folder.file(name, data)` of JSZip: replace the member of that name
when present, otherwise append it. -/
def addFileToList (files : List (String × FileData)) (fname : String)
    (d : FileData) : List (String × FileData) :=
  if files.any (fun p => p.1 == fname) then
    files.map (fun p => if p.1 == fname then (fname, d) else p)
  else files ++ [(fname, d)]

/-- `zip.folder(name)` followed by writes: apply `g` to the existing
folder of that name when present, otherwise to a fresh folder appended at
the end. -/
def zipUpdateFolder (z : List ZipFolder) (fname : String)
    (g : List (String × FileData) → List (String × FileData)) : List ZipFolder :=
  if z.any (fun fo => fo.name == fname) then
    z.map (fun fo =>
      if fo.name == fname then { name := fname, files := g fo.files } else fo)
  else z ++ [{ name := fname, files := g [] }]

/-- `entry.medicine_name.replace(/[^a-zA-Z0-9]/g, '_')` (line 201): every
non-alphanumeric character becomes an underscore. -/
def sanitizeFolderName (label : String) : String :=
  (label.toList.map (fun c => if c.isAlphanum then c else '_')).asString

/-- `url.split('.').pop() || 'jpg'` (line 212): the text after the last
`'.'` of the whole reference, with `'jpg'` only when that text is empty. -/
def extOf (url : String) : String :=
  let seg := jsSplitPop url
  if seg == "" then "jpg" else seg

/-- Outcomes of the fetches issued by `exportZIP`: whether retrieving the
given location succeeds. -/
structure FetchEnv where
  fetchOk : String → Bool

/-- The per-image loop of `exportZIP` (lines 207-217): for index `idx`
the code runs `fetch(entry.image_urls[idx])` on the stored reference as
is, and on success writes the bytes as
`image_(idx+1).(extOf url)`; a fetch failure is logged and skipped. -/
def addImagesLoop (env : FetchEnv) : List String → Nat →
    List (String × FileData) → List (String × FileData)
  | [], _, files => files
  | u :: rest, idx, files =>
    let files' :=
      if env.fetchOk u then
        addFileToList files ("image_" ++ Nat.repr (idx + 1) ++ "." ++ extOf u)
          (FileData.blob u)
      else files
    addImagesLoop env rest (idx + 1) files'

/-- Per-entry body of `exportZIP` (lines 200-219): open (or create) the
folder named by the sanitized label, write `medicine_name.txt` with the
raw label, then add the images. -/
def exportZIPStep (env : FetchEnv) (z : List ZipFolder) (e : Entry) :
    List ZipFolder :=
  zipUpdateFolder z (sanitizeFolderName e.medicine_name) (fun files =>
    addImagesLoop env e.image_urls 0
      (addFileToList files "medicine_name.txt" (FileData.text e.medicine_name)))

/-- The archive built by `exportZIP` plus the trace of locations passed to
`fetch`, in call order. -/
structure ZipBuild where
  zip : List ZipFolder
  fetched : List String
deriving DecidableEq, Repr

/-- `exportZIP` (lines 198-222): fold the per-entry body over the loaded
entry list; `fetch` is called once per stored image reference, on the
reference itself. -/
def exportZIP (entries : List Entry) (env : FetchEnv) : ZipBuild :=
  entries.foldl
    (fun b e =>
      { zip := exportZIPStep env b.zip e, fetched := b.fetched ++ e.image_urls })
    { zip := [], fetched := [] }

/-- One network event of `deleteEntry`, in issue order. -/
inductive DelEvent where
  | fetchRecord (id : String)
  | blobRemove (paths : List String)
  | recordDelete (id : String)
deriving DecidableEq, Repr

/-- Outcomes of the external calls of `deleteEntry`: the confirmation
dialog, the fetched record (`none` models a fetch error), and the results
of the storage remove and the row delete. -/
structure DeleteEnv where
  confirmed : Bool
  fetchResult : Option Entry
  removeOk : Bool
  deleteOk : Bool

/-- Observable outcome of one `deleteEntry` run. -/
structure DeleteResult where
  events : List DelEvent
  errorLogs : Nat
  refreshed : Bool
  notification : Option Notif
deriving DecidableEq, Repr

/-- `deleteEntry` (lines 224-258): confirm; fetch the record (on error log
and return); when its image list is non-empty remove those blobs,
logging a failure but proceeding; then delete the row; on error notify
failure without refreshing, on success refresh and notify success. -/
def deleteEntry (id : String) (env : DeleteEnv) : DeleteResult :=
  if !env.confirmed then ⟨[], 0, false, none⟩
  else
    match env.fetchResult with
    | none => ⟨[DelEvent.fetchRecord id], 1, false, none⟩
    | some entry =>
      let blobEvents :=
        if entry.image_urls.length > 0 then [DelEvent.blobRemove entry.image_urls]
        else []
      let blobLogs :=
        if entry.image_urls.length > 0 then (if env.removeOk then 0 else 1) else 0
      let events :=
        [DelEvent.fetchRecord id] ++ blobEvents ++ [DelEvent.recordDelete id]
      if env.deleteOk then
        ⟨events, blobLogs, true, some (.success "Delete successful")⟩
      else
        ⟨events, blobLogs + 1, false, some (.error "Delete unsuccessful")⟩

/-- Outcomes of the external calls of `clearAll`: the confirmation dialog
and the results of the bulk blob remove and the bulk row delete. -/
structure ClearEnv where
  confirmed : Bool
  removeOk : Bool
  deleteOk : Bool
deriving DecidableEq, Repr

/-- Observable outcome of one `clearAll` run: the argument of each bulk
blob-remove call, the owner filter of each bulk row-delete call
(`user?.id`), the logs, the resulting in-memory entry list, and the
notification. -/
structure ClearResult where
  blobRemoveCalls : List (List String)
  recordDeleteCalls : List (Option String)
  errorLogs : Nat
  finalEntries : List Entry
  notification : Option Notif
deriving DecidableEq, Repr

/-- `clearAll` (lines 260-285): confirm; when entries are loaded, flatten
their image references and, when that list is non-empty, issue one bulk
blob remove (logging a failure but proceeding); then unconditionally issue
one bulk row delete scoped to `user?.id`; on error notify failure, on
success clear the in-memory list and notify success. -/
def clearAll (entries : List Entry) (user : Option String) (env : ClearEnv) :
    ClearResult :=
  if !env.confirmed then ⟨[], [], 0, entries, none⟩
  else
    let blobCalls :=
      if entries.length > 0 then
        let allPaths := entries.flatMap (fun e => e.image_urls)
        if allPaths.length > 0 then [allPaths] else []
      else []
    let blobLogs := if blobCalls ≠ [] ∧ ¬env.removeOk then 1 else 0
    if env.deleteOk then
      ⟨blobCalls, [user], blobLogs, [], some (.success "Clear all successful")⟩
    else
      ⟨blobCalls, [user], blobLogs + 1, entries,
        some (.error "Clear all unsuccessful")⟩

/-- The slice of component state visible to the export handlers: the
loaded entry list and the active search term. The three export handlers
close over `entries`; none of them reads `searchTerm` or
`filteredEntries`. -/
structure AppState where
  entries : List Entry
  searchTerm : String
deriving Repr

/-- `exportCSV` as invoked on the component state. -/
def exportCSVState (s : AppState) : ExportFile :=
  exportCSV s.entries

/-- `exportXLSX` as invoked on the component state. -/
def exportXLSXState (s : AppState) : ExportFile :=
  exportXLSX s.entries

/-- `exportZIP` as invoked on the component state. -/
def exportZIPState (s : AppState) (env : FetchEnv) : ZipBuild :=
  exportZIP s.entries env

/-- Demonstration submit environment: the first upload succeeds, every
later one fails, and the insert succeeds. -/
def demoSubmitEnv : SubmitEnv :=
  { uploadOk := fun i => i == 0, uniqueKey := fun i => Nat.repr i,
    insertOk := true }

/-- Demonstration submit environment in which every upload succeeds but
the insert fails. -/
def demoSubmitEnvInsertFail : SubmitEnv :=
  { uploadOk := fun _ => true, uniqueKey := fun i => Nat.repr i,
    insertOk := false }

/-- Demonstration submit state: a valid label, two selected files and a
signed-in user. -/
def demoSubmitState : SubmitState :=
  { text := "Aspirin", files := [⟨"a.png"⟩, ⟨"b.png"⟩], user := some "u1" }

/-- Demonstration submit state with a whitespace-only label. -/
def demoBlankSubmitState : SubmitState :=
  { text := "   ", files := [⟨"a.png"⟩], user := some "u1" }

/-- Demonstration entry with label `Aspirin` and two image references. -/
def aspirinEntry : Entry :=
  { id := "e1", user_id := "u1", medicine_name := "Aspirin",
    image_urls := ["u1/a.png", "u1/b.png"], created_at := "t1" }

/-- Fetch environment in which every image fetch succeeds. -/
def fetchAllOk : FetchEnv :=
  { fetchOk := fun _ => true }

/-- Demonstration entry whose label `A/B` sanitizes to `A_B`. -/
def slashEntry : Entry :=
  { id := "e2", user_id := "u1", medicine_name := "A/B",
    image_urls := ["u1/a.png"], created_at := "t2" }

/-- Demonstration entry whose label `A-B` also sanitizes to `A_B`. -/
def dashEntry : Entry :=
  { id := "e3", user_id := "u1", medicine_name := "A-B",
    image_urls := ["u1/b.png", "u1/c.jpg"], created_at := "t3" }

/-- Demonstration entry with a single stored image reference. -/
def ibuprofenEntry : Entry :=
  { id := "e4", user_id := "u1", medicine_name := "Ibuprofen",
    image_urls := ["u1/a.png"], created_at := "t4" }

/-- Demonstration entry whose image reference has no dot at all. -/
def dotlessEntry : Entry :=
  { id := "e5", user_id := "u1", medicine_name := "Paracetamol",
    image_urls := ["u1/scan"], created_at := "t5" }

/-- `charsIncludes` decides substring (infix) occurrence. -/
theorem charsIncludes_iff (needle haystack : List Char) :
    charsIncludes haystack needle = true ↔ needle <:+: haystack := by
  induction haystack with
  | nil =>
    simp [charsIncludes, List.isPrefixOf_iff_prefix, List.infix_nil,
      List.prefix_nil]
  | cons h rest ih =>
    simp [charsIncludes, List.isPrefixOf_iff_prefix, List.infix_cons_iff, ih,
      Bool.or_eq_true]

/-- The empty needle occurs in every haystack. -/
theorem charsIncludes_nil (haystack : List Char) :
    charsIncludes haystack [] = true :=
  (charsIncludes_iff [] haystack).mpr List.nil_infix

/-- The upload loop attempts every file, collects one image path per
successful upload, and logs one error per failed upload. -/
theorem uploadLoop_spec (uid : String) (env : SubmitEnv) :
    ∀ (files : List FileHandle) (idx : Nat),
      (uploadLoop uid env files idx).attempted.length = files.length ∧
      (uploadLoop uid env files idx).urls.length
        = (List.range' idx files.length).countP env.uploadOk ∧
      (uploadLoop uid env files idx).logs
        = (List.range' idx files.length).countP (fun i => !env.uploadOk i)
  | [], idx => by simp [uploadLoop]
  | f :: rest, idx => by
    have ih := uploadLoop_spec uid env rest (idx + 1)
    cases hok : env.uploadOk idx <;>
      simp [uploadLoop, hok, List.range'_succ, List.countP_cons, ih.1, ih.2.1,
        ih.2.2, Nat.add_comm]

/-- When the guard of `handleSubmit` passes, the handler runs the upload
loop and then the insert branch. -/
theorem handleSubmit_valid (s : SubmitState) (env : SubmitEnv) (uid : String)
    (hU : s.user = some uid) (hT : jsTrim s.text ≠ "") (hF : s.files ≠ []) :
    handleSubmit s env =
      (let out := uploadLoop uid env s.files 0
       let record : InsertedRecord :=
         { user_id := uid, medicine_name := s.text, image_urls := out.urls }
       if env.insertOk then
         { uploadCalls := out.attempted, insertCalls := [record],
           errorLogs := out.logs, finalText := "", finalFiles := [],
           refreshed := true,
           notification := some (.success "Upload successful") }
       else
         { uploadCalls := out.attempted, insertCalls := [record],
           errorLogs := out.logs + 1, finalText := s.text,
           finalFiles := s.files, refreshed := false,
           notification := some (.error "Upload unsuccessful") }) := by
  have h1 : (jsTrim s.text == "") = false := beq_eq_false_iff_ne.mpr hT
  have h2 : s.files.isEmpty = false := List.isEmpty_eq_false.mpr hF
  simp only [handleSubmit, hU, h1, h2, Bool.or_self, Bool.false_or,
    Bool.false_eq_true, if_false]

/-- C1: for every non-empty (after trimming) label, non-empty file list
and present identity, a successful submit issues exactly one insert, and
the inserted record's image-reference list has length equal to the number
of files whose upload succeeded, a number between 0 and the number of
input files; every file's upload is attempted (a per-file failure is
logged and skipped without aborting the remaining uploads or the
insert). -/
theorem c1_submit_partial_success (s : SubmitState) (env : SubmitEnv)
    (uid : String) (hU : s.user = some uid) (hT : jsTrim s.text ≠ "")
    (hF : s.files ≠ []) (hI : env.insertOk = true) :
    (handleSubmit s env).insertCalls.length = 1 ∧
    (∀ r ∈ (handleSubmit s env).insertCalls,
      r.image_urls.length = (List.range s.files.length).countP env.uploadOk) ∧
    (List.range s.files.length).countP env.uploadOk ≤ s.files.length ∧
    (handleSubmit s env).uploadCalls.length = s.files.length ∧
    (handleSubmit s env).errorLogs
      = (List.range s.files.length).countP (fun i => !env.uploadOk i) := by
  rw [handleSubmit_valid s env uid hU hT hF]
  have hs := uploadLoop_spec uid env s.files 0
  simp only [hI, if_true, List.range_eq_range']
  refine ⟨rfl, ?_, ?_, hs.1, hs.2.2⟩
  · intro r hr
    simp only [List.mem_singleton] at hr
    subst hr
    exact hs.2.1
  · calc (List.range' 0 s.files.length).countP env.uploadOk
        ≤ (List.range' 0 s.files.length).length := List.countP_le_length _
      _ = s.files.length := List.length_range' 0 1 s.files.length

theorem c1_witness :
    (handleSubmit demoSubmitState demoSubmitEnv).insertCalls.length = 1 ∧
    (handleSubmit demoSubmitState demoSubmitEnv).uploadCalls.length
      = demoSubmitState.files.length ∧
    (List.range demoSubmitState.files.length).countP demoSubmitEnv.uploadOk
      ≤ demoSubmitState.files.length := by
  have h := c1_submit_partial_success demoSubmitState demoSubmitEnv "u1" rfl
    (by decide) (by decide) rfl
  exact ⟨h.1, h.2.2.2.1, h.2.2.1⟩

/-- C6: submitting with an empty trimmed label, an empty file list, or no
identity performs zero network calls (no upload, no insert), leaves the
label and file-selection state unchanged, triggers no refresh, logs
nothing, and shows no notification. -/
theorem c6_invalid_submit_noop (s : SubmitState) (env : SubmitEnv)
    (h : jsTrim s.text = "" ∨ s.files = [] ∨ s.user = none) :
    (handleSubmit s env).uploadCalls = [] ∧
    (handleSubmit s env).insertCalls = [] ∧
    (handleSubmit s env).finalText = s.text ∧
    (handleSubmit s env).finalFiles = s.files ∧
    (handleSubmit s env).refreshed = false ∧
    (handleSubmit s env).notification = none ∧
    (handleSubmit s env).errorLogs = 0 := by
  have hres : handleSubmit s env =
      { uploadCalls := [], insertCalls := [], errorLogs := 0,
        finalText := s.text, finalFiles := s.files, refreshed := false,
        notification := none } := by
    unfold handleSubmit
    cases hu : s.user with
    | none => rfl
    | some uid =>
      have hcond : (jsTrim s.text == "" || s.files.isEmpty) = true := by
        rcases h with h1 | h2 | h3
        · simp [h1]
        · simp [h2]
        · rw [h3] at hu; exact absurd hu (by simp)
      simp [hcond]
  rw [hres]
  exact ⟨rfl, rfl, rfl, rfl, rfl, rfl, rfl⟩

theorem c6_witness :
    (handleSubmit demoBlankSubmitState demoSubmitEnv).uploadCalls = [] ∧
    (handleSubmit demoBlankSubmitState demoSubmitEnv).insertCalls = [] ∧
    (handleSubmit demoBlankSubmitState demoSubmitEnv).finalText
      = demoBlankSubmitState.text ∧
    (handleSubmit demoBlankSubmitState demoSubmitEnv).finalFiles
      = demoBlankSubmitState.files ∧
    (handleSubmit demoBlankSubmitState demoSubmitEnv).refreshed = false ∧
    (handleSubmit demoBlankSubmitState demoSubmitEnv).notification = none ∧
    (handleSubmit demoBlankSubmitState demoSubmitEnv).errorLogs = 0 :=
  c6_invalid_submit_noop demoBlankSubmitState demoSubmitEnv
    (Or.inl (by decide))

/-- C9: when the record insert of a valid submit fails, the failure is
logged and an error notification is shown, while the label text, the
selected file list, and the refresh flag are all left unchanged. -/
theorem c9_insert_failure_state (s : SubmitState) (env : SubmitEnv)
    (uid : String) (hU : s.user = some uid) (hT : jsTrim s.text ≠ "")
    (hF : s.files ≠ []) (hI : env.insertOk = false) :
    (handleSubmit s env).finalText = s.text ∧
    (handleSubmit s env).finalFiles = s.files ∧
    (handleSubmit s env).refreshed = false ∧
    (handleSubmit s env).notification
      = some (Notif.error "Upload unsuccessful") ∧
    1 ≤ (handleSubmit s env).errorLogs := by
  rw [handleSubmit_valid s env uid hU hT hF]
  simp only [hI, Bool.false_eq_true, if_false]
  exact ⟨trivial, trivial, trivial, trivial, Nat.le_add_left 1 _⟩

theorem c9_witness :
    (handleSubmit demoSubmitState demoSubmitEnvInsertFail).finalText
      = demoSubmitState.text ∧
    (handleSubmit demoSubmitState demoSubmitEnvInsertFail).finalFiles
      = demoSubmitState.files ∧
    (handleSubmit demoSubmitState demoSubmitEnvInsertFail).refreshed = false ∧
    (handleSubmit demoSubmitState demoSubmitEnvInsertFail).notification
      = some (Notif.error "Upload unsuccessful") ∧
    1 ≤ (handleSubmit demoSubmitState demoSubmitEnvInsertFail).errorLogs :=
  c9_insert_failure_state demoSubmitState demoSubmitEnvInsertFail "u1" rfl
    (by decide) (by decide) rfl

/-- C2 (as stated) is false: with zero loaded entries a confirmed
`clearAll` still issues the bulk record-delete call — the row delete at
line 277 is unconditional. -/
theorem c2_counterexample :
    (clearAll [] (some "u1") ⟨true, true, true⟩).recordDeleteCalls
      = [some "u1"] := by
  decide

/-- C2 amended: with zero loaded entries, a confirmed `clearAll` performs
no blob-delete call, performs exactly one record-delete call scoped to the
current identity, and reports success when that call succeeds. -/
theorem c2_amended_zero_entries (user : Option String) (env : ClearEnv)
    (hc : env.confirmed = true) :
    (clearAll [] user env).blobRemoveCalls = [] ∧
    (clearAll [] user env).recordDeleteCalls = [user] ∧
    (env.deleteOk = true →
      (clearAll [] user env).notification
        = some (Notif.success "Clear all successful")) := by
  unfold clearAll
  rw [hc]
  cases hd : env.deleteOk <;> simp [hd]

theorem c2_witness :
    (clearAll [] (some "u2") ⟨true, false, true⟩).blobRemoveCalls = [] ∧
    (clearAll [] (some "u2") ⟨true, false, true⟩).recordDeleteCalls
      = [some "u2"] ∧
    (clearAll [] (some "u2") ⟨true, false, true⟩).notification
      = some (Notif.success "Clear all successful") := by
  have h := c2_amended_zero_entries (some "u2") ⟨true, false, true⟩ rfl
  exact ⟨h.1, h.2.1, h.2.2 rfl⟩

/-- C8: for a confirmed `deleteEntry` whose record fetch succeeds, the
blob removal of the entry's image references is issued before the record
delete (when there are references), the record delete is issued no matter
how the blob removal fared, and a record-delete failure yields a failure
notification with no refresh. -/
theorem c8_delete_blob_before_record (id : String) (env : DeleteEnv)
    (entry : Entry) (hc : env.confirmed = true)
    (hf : env.fetchResult = some entry) :
    (entry.image_urls ≠ [] →
      (deleteEntry id env).events =
        [DelEvent.fetchRecord id, DelEvent.blobRemove entry.image_urls,
          DelEvent.recordDelete id]) ∧
    DelEvent.recordDelete id ∈ (deleteEntry id env).events ∧
    (env.deleteOk = false →
      (deleteEntry id env).notification
        = some (Notif.error "Delete unsuccessful") ∧
      (deleteEntry id env).refreshed = false) := by
  unfold deleteEntry
  rw [hc, hf]
  cases hu : entry.image_urls with
  | nil => cases hd : env.deleteOk <;> simp [hd, hu]
  | cons p ps => cases hd : env.deleteOk <;> simp [hd, hu]

theorem c8_witness :
    (deleteEntry "e1" ⟨true, some aspirinEntry, false, false⟩).events =
      [DelEvent.fetchRecord "e1", DelEvent.blobRemove aspirinEntry.image_urls,
        DelEvent.recordDelete "e1"] ∧
    DelEvent.recordDelete "e1"
      ∈ (deleteEntry "e1" ⟨true, some aspirinEntry, false, false⟩).events ∧
    (deleteEntry "e1" ⟨true, some aspirinEntry, false, false⟩).notification
      = some (Notif.error "Delete unsuccessful") ∧
    (deleteEntry "e1" ⟨true, some aspirinEntry, false, false⟩).refreshed
      = false := by
  have h := c8_delete_blob_before_record "e1"
    ⟨true, some aspirinEntry, false, false⟩ aspirinEntry rfl rfl
  exact ⟨h.1 (by decide), h.2.1, (h.2.2 rfl).1, (h.2.2 rfl).2⟩

/-- C3: both table exports write a single sheet named `Entries` with
headers `Medicine Name` and `Image Count`, holding exactly one data row
per entry in list order, each row being the projection
(label, length of the image-reference list); the downloads are named
`entries.csv` and `entries.xlsx`. -/
theorem c3_export_table_rows (entries : List Entry) :
    (exportCSV entries).sheet.rows
      = entries.map (fun e => (e.medicine_name, e.image_urls.length)) ∧
    (exportCSV entries).sheet.rows.length = entries.length ∧
    (exportXLSX entries).sheet = (exportCSV entries).sheet ∧
    (exportCSV entries).sheet.sheetName = "Entries" ∧
    (exportCSV entries).sheet.headers = ["Medicine Name", "Image Count"] ∧
    (exportCSV entries).fileName = "entries.csv" ∧
    (exportXLSX entries).fileName = "entries.xlsx" := by
  refine ⟨rfl, ?_, rfl, rfl, rfl, rfl, rfl⟩
  simp [exportCSV, entriesWorksheet]

/-- C4: archive folder names are the labels with every non-alphanumeric
character replaced by an underscore; `A/B` and `A-B` collide on `A_B`, and
the colliding second entry merges into the first entry's folder,
overwriting its equal-named members (`medicine_name.txt`, `image_1.png`)
and adding its remaining files. -/
theorem c4_zip_folder_sanitize_merge :
    (∀ label : String, (sanitizeFolderName label).toList
      = label.toList.map (fun c => if c.isAlphanum then c else '_')) ∧
    (∀ (e : Entry) (env : FetchEnv),
      (exportZIP [e] env).zip.map ZipFolder.name
        = [sanitizeFolderName e.medicine_name]) ∧
    sanitizeFolderName "A/B" = "A_B" ∧
    sanitizeFolderName "A-B" = "A_B" ∧
    (exportZIP [slashEntry, dashEntry] fetchAllOk).zip =
      [{ name := "A_B",
         files := [("medicine_name.txt", FileData.text "A-B"),
                   ("image_1.png", FileData.blob "u1/b.png"),
                   ("image_2.jpg", FileData.blob "u1/c.jpg")] }] := by
  refine ⟨fun label => rfl, fun e env => ?_, by decide, by decide, by decide⟩
  simp [exportZIP, exportZIPStep, zipUpdateFolder]

/-- C5 evaluated on the code: `exportZIP` passes the raw stored reference
`u1/a.png` to `fetch` without resolving it to a public location, and
derives the member extension from the raw reference; a dot-free reference
such as `u1/scan` yields the member name `image_1.u1/scan` instead of the
claimed `jpg` default. -/
theorem c5_zip_fetch_unresolved :
    (exportZIP [ibuprofenEntry] fetchAllOk).fetched = ["u1/a.png"] ∧
    (exportZIP [ibuprofenEntry] fetchAllOk).zip =
      [{ name := "Ibuprofen",
         files := [("medicine_name.txt", FileData.text "Ibuprofen"),
                   ("image_1.png", FileData.blob "u1/a.png")] }] ∧
    extOf "u1/scan" = "u1/scan" ∧
    (exportZIP [dotlessEntry] fetchAllOk).zip =
      [{ name := "Paracetamol",
         files := [("medicine_name.txt", FileData.text "Paracetamol"),
                   ("image_1.u1/scan", FileData.blob "u1/scan")] }] := by
  exact ⟨by decide, by decide, by decide, by decide⟩

/-- C7: the search filter returns the subsequence (order preserved) of
entries whose lower-cased label contains the lower-cased term as a
substring; the empty term returns the full list, and the label `Aspirin`
matches the term `aspirin`. -/
theorem c7_filter_case_insensitive (entries : List Entry) (term : String) :
    (filteredEntries entries term).Sublist entries ∧
    (∀ e, e ∈ filteredEntries entries term ↔
      e ∈ entries ∧ lowerChars term <:+: lowerChars e.medicine_name) ∧
    filteredEntries entries "" = entries ∧
    filteredEntries [aspirinEntry] "aspirin" = [aspirinEntry] := by
  refine ⟨List.filter_sublist _, ?_, ?_, by decide⟩
  · intro e
    simp only [filteredEntries, List.mem_filter, charsIncludes_iff]
  · rw [filteredEntries]
    apply List.filter_eq_self.mpr
    intro a _
    exact charsIncludes_nil _

theorem c7_witness :
    (filteredEntries [aspirinEntry] "PIRI").Sublist [aspirinEntry] ∧
    (aspirinEntry ∈ filteredEntries [aspirinEntry] "PIRI" ↔
      aspirinEntry ∈ [aspirinEntry] ∧
        lowerChars "PIRI" <:+: lowerChars aspirinEntry.medicine_name) ∧
    filteredEntries [aspirinEntry] "" = [aspirinEntry] := by
  have h := c7_filter_case_insensitive [aspirinEntry] "PIRI"
  exact ⟨h.1, h.2.1 aspirinEntry, (c7_filter_case_insensitive [aspirinEntry] "PIRI").2.2.1⟩

/-- C10: all three exports read only the loaded entry list, never the
search-filtered view, so their outputs are identical under any two search
terms over the same entries — even when the filtered views themselves
differ, as they do for `Aspirin` under the terms `zz` and the empty term. -/
theorem c10_export_search_noninterference (es : List Entry)
    (t₁ t₂ : String) (env : FetchEnv) :
    exportCSVState ⟨es, t₁⟩ = exportCSVState ⟨es, t₂⟩ ∧
    exportXLSXState ⟨es, t₁⟩ = exportXLSXState ⟨es, t₂⟩ ∧
    exportZIPState ⟨es, t₁⟩ env = exportZIPState ⟨es, t₂⟩ env ∧
    filteredEntries [aspirinEntry] "zz" ≠ filteredEntries [aspirinEntry] "" :=
  ⟨rfl, rfl, rfl, by decide⟩
